import Mathlib

/-!
Shallow embedding of the dynamic-request-scheduler core
(`internal/spec`: template engine, evaluator, schedule types, config
validation; `internal/engine`: schedule engine helpers), together with
theorems checking the natural-language specification against it.

Conventions used throughout:
* Go `time.Time` values and `time.Duration` values are modelled as `Int`
  nanoseconds since the Unix epoch (resp. `Int` nanoseconds).
* Go machine integers are modelled by unbounded `Int`/`Nat`; the inputs the
  repository feeds these functions are far from the `int64` boundaries, so
  wrap-around is not modelled.
* Go strings are Lean `String`s; where the source indexes raw bytes the
  UTF-8 byte list obtained by `utf8Bytes` is used, so that byte-level
  behaviour (e.g. on "±") is preserved exactly.
* Impure inputs are passed explicitly: the crypto entropy of `uuid` is an
  `Option (List Nat)`, the `time.Now().UnixNano()` value feeding the
  non-seeded random path is a `Nat` argument, and the text/template engine
  (Go standard library) is an explicit function argument.
-/

namespace DRS

/-- UTF-8 encoding of a single code point, as `Nat` byte values. -/
def utf8EncodeNat (n : Nat) : List Nat :=
  if n < 128 then [n]
  else if n < 2048 then [192 + n / 64, 128 + n % 64]
  else if n < 65536 then [224 + n / 4096, 128 + (n / 64) % 64, 128 + n % 64]
  else [240 + n / 262144, 128 + (n / 4096) % 64, 128 + (n / 64) % 64, 128 + n % 64]

/-- The UTF-8 byte sequence of a string, as Go sees it when indexing `s[i]`. -/
def utf8Bytes (s : String) : List Nat :=
  s.data.foldr (fun c acc => utf8EncodeNat c.toNat ++ acc) []

/-- ASCII decimal digit test on a byte. -/
def isDigitByte (c : Nat) : Bool := 48 ≤ c && c ≤ 57

/-- Consume a leading run of decimal digits: value, number of digits consumed, rest.
Models `leadingInt` inside Go `time.ParseDuration` (overflow not modelled). -/
def leadingInt (acc : Nat) (count : Nat) : List Nat → Nat × Nat × List Nat
  | [] => (acc, count, [])
  | c :: rest =>
    if isDigitByte c then leadingInt (acc * 10 + (c - 48)) (count + 1) rest
    else (acc, count, c :: rest)

/-- Consume a fractional-digit run: value, scale (10 ^ digits), digits consumed, rest.
Models `leadingFraction` inside Go `time.ParseDuration`. -/
def leadingFraction (f : Nat) (scale : Nat) (count : Nat) : List Nat → Nat × Nat × Nat × List Nat
  | [] => (f, scale, count, [])
  | c :: rest =>
    if isDigitByte c then leadingFraction (f * 10 + (c - 48)) (scale * 10) (count + 1) rest
    else (f, scale, count, c :: rest)

/-- Consume the unit token: the longest run of bytes that are neither digits nor a dot. -/
def takeUnit : List Nat → List Nat × List Nat
  | [] => ([], [])
  | c :: rest =>
    if isDigitByte c || c = 46 then ([], c :: rest)
    else
      let (u, r) := takeUnit rest
      (c :: u, r)

/-- The unit table of Go `time.ParseDuration`, in nanoseconds, keyed by UTF-8 bytes:
ns, us, µs (U+00B5), μs (U+03BC), ms, s, m, h. -/
def unitValue (u : List Nat) : Option Nat :=
  if u = [110, 115] then some 1
  else if u = [117, 115] then some 1000
  else if u = [194, 181, 115] then some 1000
  else if u = [206, 188, 115] then some 1000
  else if u = [109, 115] then some 1000000
  else if u = [115] then some 1000000000
  else if u = [109] then some 60000000000
  else if u = [104] then some 3600000000000
  else none

/-- One pass of the `time.ParseDuration` component loop, fuelled by the input length
(each iteration consumes at least the nonempty unit token, so the fuel suffices). -/
def parseDurLoop : Nat → List Nat → Nat → Option Nat
  | 0, _, _ => none
  | _ + 1, [], acc => some acc
  | fuel + 1, c :: s, acc =>
    if ¬(isDigitByte c || c = 46) then none
    else
      let (v, npre, s1) := leadingInt 0 0 (c :: s)
      let (f, scale, npost, s2) :=
        match s1 with
        | 46 :: s1' => leadingFraction 0 1 0 s1'
        | _ => (0, 1, 0, s1)
      if npre = 0 ∧ npost = 0 then none
      else
        let (u, s3) := takeUnit s2
        if u = [] then none
        else
          match unitValue u with
          | none => none
          | some unit => parseDurLoop fuel s3 (acc + v * unit + f * unit / scale)

/-- Models Go `time.ParseDuration` on the UTF-8 bytes of the input: optional
sign, the special string "0", then one or more number[.fraction]unit groups.
Two deliberate idealisations, documented here: overflow is not modelled, and
the fractional contribution is computed in exact integer arithmetic where Go
uses `float64` (they agree whenever the product is exactly representable,
which covers every duration string in this repository and its docs). -/
def parseDuration (s : List Nat) : Option Int :=
  let (neg, s1) :=
    match s with
    | c :: rest =>
      if c = 45 then (true, rest)
      else if c = 43 then (false, rest)
      else (false, s)
    | [] => (false, ([] : List Nat))
  if s1 = [48] then some 0
  else if s1 = [] then none
  else (parseDurLoop (s1.length + 1) s1 0).map fun n =>
    if neg then -(n : Int) else (n : Int)

/-- Models `spec.EvaluationContext`: caller variables, the sequence counter,
the optional deterministic seed, and the lazily created `math/rand` source
state (`none` until first seeded use, as in the Go code). The `Clock` field is
modelled by passing "now" explicitly to the functions that read it. -/
structure EvaluationContext where
  vars : List (String × String)
  sequence : Int
  seed : Int
  randSource : Option Nat
deriving Repr, DecidableEq

/-- Deterministic model of `math/rand.NewSource(seed)`: the exact stream is
irrelevant to every claim (only determinism and output range matter), so a
64-bit LCG state seeded injectively from the seed stands in for Go's source. -/
def newSource (seed : Int) : Nat :=
  (2 * seed.natAbs + (if seed < 0 then 1 else 0)) % 2 ^ 64

/-- One step of the modelled generator state. -/
def sourceStep (st : Nat) : Nat :=
  (st * 6364136223846793005 + 1442695040888963407) % 2 ^ 64

/-- Models `Rand.Intn(n)` for `n > 0`: a value in `[0, n)` plus the next state. -/
def sourceIntn (st : Nat) (n : Int) : Int × Nat :=
  let st' := sourceStep st
  ((st' : Int) % n, st')

/-- Models `Rand.Float64()` by the integer numerator of the produced value
(value = numerator / 2 ^ 53); only equality of outputs is ever at stake. -/
def sourceFloat (st : Nat) : Nat × Nat :=
  let st' := sourceStep st
  (st' % 2 ^ 53, st')

/-- Models `TemplateEngine.randInt(min, max)`. `nano` is the
`time.Now().UnixNano()` value read by the non-seeded branch (nonnegative for
any real clock). Returns the result and the updated context. -/
def randInt (ctx : EvaluationContext) (nano : Nat) (min max : Int) :
    Int × EvaluationContext :=
  if min ≥ max then (min, ctx)
  else if ctx.seed ≠ 0 then
    let st := ctx.randSource.getD (newSource ctx.seed)
    let (v, st') := sourceIntn st (max - min + 1)
    (min + v, { ctx with randSource := some st' })
  else
    (min + (nano : Int) % (max - min + 1), ctx)

/-- Models `TemplateEngine.randFloat()`; the non-seeded branch returns
`UnixNano / MaxInt64`, modelled by its numerator `nano`. -/
def randFloat (ctx : EvaluationContext) (nano : Nat) : Nat × EvaluationContext :=
  if ctx.seed ≠ 0 then
    let st := ctx.randSource.getD (newSource ctx.seed)
    let (v, st') := sourceFloat st
    (v, { ctx with randSource := some st' })
  else
    (nano, ctx)

/-- Models `TemplateEngine.jitter(base, duration)`: parse the duration string
(unchanged, no prefix handling); on failure return the base unchanged,
otherwise add `randInt(0, d.Nanoseconds())`. -/
def jitter (ctx : EvaluationContext) (nano : Nat) (base : Int) (duration : String) :
    Int × EvaluationContext :=
  match parseDuration (utf8Bytes duration) with
  | none => (base, ctx)
  | some d =>
    let (amt, ctx') := randInt ctx nano 0 d
    (base + amt, ctx')

/-- Models the byte-level prefix handling at the top of
`ScheduleEngine.applyJitter` (and the identical block in `ValidateSchedule`):
Go tests `jitterStr[0]`, the first UTF-8 *byte*, against the rune constants
'±' (177), '+' (43) and '-' (45); only when that byte equals 177 is the first
byte dropped before parsing. The first byte of a real "±…" string is 194, so
the 177 branch can fire only on invalid-UTF-8 input. -/
def jitterParseBytes (bs : List Nat) : List Nat :=
  match bs with
  | [] => []
  | c :: rest =>
    if (c :: rest).length > 1 ∧ (c = 177 ∨ c = 43 ∨ c = 45) then
      if c = 177 then rest else c :: rest
    else c :: rest

/-- Models `ScheduleEngine.applyJitter(baseTime, jitterStr)`: parse after the
byte-level prefix handling; on failure return the base unchanged; for a
positive duration add `UnixNano() % jitterNanos`. -/
def applyJitter (base : Int) (jitterStr : String) (nano : Nat) : Int :=
  match parseDuration (jitterParseBytes (utf8Bytes jitterStr)) with
  | none => base
  | some d => if d > 0 then base + (nano : Int) % d else base

/-- Models `spec.ScheduleSpec`: the four optional strategies plus jitter. -/
structure ScheduleSpec where
  epoch : Option Int
  relative : Option String
  template : Option String
  cron : Option String
  jitter : Option String
deriving Repr, DecidableEq

/-- The strategy count computed at the top of `ScheduleSpec.Validate` and
`ScheduleEngine.ValidateSchedule`: how many of the four strategies are set. -/
def ScheduleSpec.strategyCount (s : ScheduleSpec) : Nat :=
  (if s.epoch.isSome then 1 else 0) + (if s.relative.isSome then 1 else 0) +
    (if s.template.isSome then 1 else 0) + (if s.cron.isSome then 1 else 0)

/-- Models `ScheduleSpec.Validate`: exactly one strategy must be set; nothing
else (in particular no string syntax) is checked here. -/
def ScheduleSpec.Validate (s : ScheduleSpec) : Except String Unit :=
  if s.strategyCount ≠ 1 then
    .error "schedule: exactly one schedule strategy must be specified (epoch, relative, template, or cron)"
  else .ok ()

/-- Models `Evaluator.computeScheduledTime`. `now` is the context clock
reading, `nano` the `UnixNano` entropy feeding any jitter draw and `evalTInt`
the engine's `EvaluateTemplateToInt64` bound to the live context. Branches in
source order: epoch (returned verbatim, no jitter), relative (parse, add,
jitter if present), template (evaluate, jitter if present), cron (error),
none set (error). -/
def computeScheduledTime (ctx : EvaluationContext) (now : Int) (nano : Nat)
    (evalTInt : String → Except String Int) (schedule : ScheduleSpec) :
    Except String (Int × EvaluationContext) :=
  match schedule.epoch with
  | some e => .ok (e * 1000000000, ctx)
  | none =>
    match schedule.relative with
    | some r =>
      match parseDuration (utf8Bytes r) with
      | none => .error ("invalid relative duration " ++ r)
      | some d =>
        let scheduledTime := now + d
        match schedule.jitter with
        | some j => .ok (jitter ctx nano scheduledTime j)
        | none => .ok (scheduledTime, ctx)
    | none =>
      match schedule.template with
      | some tp =>
        match evalTInt tp with
        | .error e => .error ("failed to evaluate schedule template: " ++ e)
        | .ok epoch =>
          let scheduledTime := epoch * 1000000000
          match schedule.jitter with
          | some j => .ok (jitter ctx nano scheduledTime j)
          | none => .ok (scheduledTime, ctx)
      | none =>
        match schedule.cron with
        | some _ => .error "cron scheduling not yet implemented"
        | none => .error "no valid schedule strategy found"

/-- Models `ScheduleEngine.ValidateSchedule`: cardinality, then per-strategy
syntax checks (epoch nonnegative, relative duration parse, cron parse via the
injected external parser `cronOk`, jitter parse with the same byte-level
prefix handling as `applyJitter`). -/
def ValidateSchedule (cronOk : String → Bool) (s : ScheduleSpec) : Except String Unit := do
  if s.strategyCount ≠ 1 then
    throw "exactly one schedule strategy must be specified (epoch, relative, template, or cron)"
  match s.epoch with
  | some e => if e < 0 then throw "epoch timestamp must be non-negative" else pure ()
  | none => pure ()
  match s.relative with
  | some r =>
    match parseDuration (utf8Bytes r) with
    | none => throw ("invalid relative duration " ++ r)
    | some _ => pure ()
  | none => pure ()
  match s.cron with
  | some c => if cronOk c then pure () else throw ("invalid cron expression " ++ c)
  | none => pure ()
  match s.jitter with
  | some j =>
    match parseDuration (jitterParseBytes (utf8Bytes j)) with
    | none => throw ("invalid jitter duration " ++ j)
    | some _ => pure ()
  | none => pure ()

/-- Lowercase hex digit character for a value below 16. -/
def hexDigit (n : Nat) : Char :=
  if n < 10 then Char.ofNat (48 + n) else Char.ofNat (87 + n)

/-- The two lowercase hex digits Go's `%x` prints for one byte. -/
def hexByte (b : Nat) : List Char := [hexDigit (b / 16), hexDigit (b % 16)]

/-- Go `%x` on a byte slice: two lowercase hex digits per byte. -/
def hexGroup (bs : List Nat) : List Char := bs.flatMap hexByte

/-- The version/variant bit operations of `TemplateEngine.uuid`:
`b[6] = (b[6] & 0x0f) | 0x40` and `b[8] = (b[8] & 0x3f) | 0x80`. -/
def setUuidBits (i : Nat) : List Nat → List Nat
  | [] => []
  | b :: rest =>
    (if i = 6 then (b &&& 15) ||| 64
     else if i = 8 then (b &&& 63) ||| 128
     else b) :: setUuidBits (i + 1) rest

/-- Models `TemplateEngine.uuid()`. `entropy` is the result of
`crypto/rand.Read` into 16 bytes (`none` = entropy-source failure); `nowNano`
and `seq` are the `time.Now().UnixNano()` and context sequence values the
fallback path formats with `"%d-%d"`. The normal path sets the version and
variant bits and formats `"%x-%x-%x-%x-%x"` over the slices
`[0:4] [4:6] [6:8] [8:10] [10:]`. -/
def uuid (entropy : Option (List Nat)) (nowNano : Int) (seq : Int) : String :=
  match entropy with
  | none => toString nowNano ++ "-" ++ toString seq
  | some bs =>
    let b := setUuidBits 0 bs
    ⟨hexGroup (b.take 4) ++ [Char.ofNat 45] ++ hexGroup ((b.drop 4).take 2) ++ [Char.ofNat 45] ++
      hexGroup ((b.drop 6).take 2) ++ [Char.ofNat 45] ++ hexGroup ((b.drop 8).take 2) ++
      [Char.ofNat 45] ++ hexGroup (b.drop 10)⟩

/-- Lowercase-hex-digit test (the characters `%x` can produce). -/
def isHexChar (c : Char) : Bool :=
  (48 ≤ c.toNat && c.toNat ≤ 57) || (97 ≤ c.toNat && c.toNat ≤ 102)

/-- Consume exactly `n` hex characters, returning the rest, if possible. -/
def hexRun : Nat → List Char → Option (List Char)
  | 0, cs => some cs
  | _ + 1, [] => none
  | n + 1, c :: cs => if isHexChar c then hexRun n cs else none

/-- Check that `cs` consists of hyphen-separated hex groups of the given lengths. -/
def groupsShape : List Nat → List Char → Bool
  | [], cs => cs.isEmpty
  | [n], cs =>
    match hexRun n cs with
    | some rest => rest.isEmpty
    | none => false
  | n :: m :: ns, cs =>
    match hexRun n cs with
    | some (c :: rest) => c.toNat = 45 && groupsShape (m :: ns) rest
    | _ => false

/-- The version-4-UUID shape the spec demands of `generate-identifier`:
five hyphen-separated hex groups of lengths 8-4-4-4-12. -/
def uuidShape (s : String) : Bool := groupsShape [8, 4, 4, 4, 12] s.data

/-- Sublist (substring) test on character lists, the semantic content of Go
`strings.Contains` (byte- and char-level containment coincide for the ASCII
patterns used here). -/
def hasSubList (pat : List Char) : List Char → Bool
  | [] => pat.isEmpty
  | c :: rest => pat.isPrefixOf (c :: rest) || hasSubList pat rest

/-- Models Go `strings.Contains(s, pat)`. -/
def strContains (s pat : String) : Bool := hasSubList pat.data s.data

/-- Models `spec.IsTemplateString`: the string contains "\x7b\x7b" somewhere and
"\x7d\x7d" somewhere (no pairing or ordering constraint). -/
def IsTemplateString (s : String) : Bool :=
  strContains s "\x7b\x7b" && strContains s "\x7d\x7d"

/-- Models the `interface{}` values the resolver walks: JSON-ish scalars,
keyed collections and lists, plus the three typed dynamic wrappers of
`internal/spec` (their `isTemplate` tag, literal value and template string).
Go map iteration order is unspecified; entry lists model one iteration order.
The `DynamicAny` literal value is a raw JSON message, modelled as a string. -/
inductive GoValue where
  | null
  | str (s : String)
  | int (n : Int)
  | map (entries : List (String × GoValue))
  | arr (items : List GoValue)
  | dynStr (isTemplate : Bool) (value : String) (template : String)
  | dynInt (isTemplate : Bool) (value : Int) (template : String)
  | dynAny (isTemplate : Bool) (value : String) (template : String)

/-- The per-string step shared by the URL and header paths of
`Evaluator.EvaluateRequest`: evaluate via the engine when the content test
classifies the string as a template, otherwise pass through unchanged. -/
def resolveTplStr (ev : String → Except String String) (s : String) :
    Except String String :=
  if IsTemplateString s then ev s else .ok s

mutual

/-- Models `Evaluator.resolveValue`, with the template engine's
`EvaluateTemplate` / `EvaluateTemplateToInt64` passed as `ev` / `evInt`
(they close over the live context). Cases in source order: nil, plain string
(content test via `IsTemplateString`), keyed map (keys and values), list,
the three dynamic wrappers (tag test), and the reflection fallback, which
returns non-struct values unchanged (`int` is the one such scalar modelled). -/
def resolveValue (ev : String → Except String String)
    (evInt : String → Except String Int) : GoValue → Except String GoValue
  | .null => .ok .null
  | .str s => if IsTemplateString s then (ev s).map GoValue.str else .ok (.str s)
  | .map entries => (resolveEntries ev evInt entries).map GoValue.map
  | .arr items => (resolveItems ev evInt items).map GoValue.arr
  | .dynStr true _ t => (ev t).map GoValue.str
  | .dynStr false v _ => .ok (.str v)
  | .dynInt true _ t => (evInt t).map GoValue.int
  | .dynInt false v _ => .ok (.int v)
  | .dynAny true _ t => (ev t).map GoValue.str
  | .dynAny false v _ => .ok (.str v)
  | .int n => .ok (.int n)

/-- The map-entry loop of `resolveValue`: resolve a template key via the
engine, resolve the value recursively, keep going down the entries. -/
def resolveEntries (ev : String → Except String String)
    (evInt : String → Except String Int) :
    List (String × GoValue) → Except String (List (String × GoValue))
  | [] => .ok []
  | (k, v) :: rest => do
    let k' ← resolveTplStr ev k
    let v' ← resolveValue ev evInt v
    let rest' ← resolveEntries ev evInt rest
    pure ((k', v') :: rest')

/-- The list loop of `resolveValue`: resolve every element, order preserved. -/
def resolveItems (ev : String → Except String String)
    (evInt : String → Except String Int) :
    List GoValue → Except String (List GoValue)
  | [] => .ok []
  | v :: rest => do
    let v' ← resolveValue ev evInt v
    let rest' ← resolveItems ev evInt rest
    pure (v' :: rest')

end

mutual

/-- A value built only from plain scalars, maps and lists, with no string
anywhere that the content test classifies as a template (and no dynamic
wrappers): the "literal, non-expression" values of the spec. -/
def templateFree : GoValue → Bool
  | .null => true
  | .int _ => true
  | .str s => !IsTemplateString s
  | .map entries => templateFreeEntries entries
  | .arr items => templateFreeItems items
  | .dynStr .. => false
  | .dynInt .. => false
  | .dynAny .. => false

/-- `templateFree` over map entries (keys and values). -/
def templateFreeEntries : List (String × GoValue) → Bool
  | [] => true
  | (k, v) :: rest => !IsTemplateString k && templateFree v && templateFreeEntries rest

/-- `templateFree` over list items. -/
def templateFreeItems : List GoValue → Bool
  | [] => true
  | v :: rest => templateFree v && templateFreeItems rest

end

/-- Models `spec.HttpRequestSpec`. -/
structure HttpRequestSpec where
  method : String
  url : String
  headers : List (String × String)
  body : Option GoValue

/-- Models `spec.ScheduledRequest`. -/
structure ScheduledRequest where
  name : String
  schedule : ScheduleSpec
  http : HttpRequestSpec

/-- Models `spec.ResolvedRequest`. -/
structure ResolvedRequest where
  name : String
  method : String
  url : String
  headers : List (String × String)
  body : Option GoValue
  scheduledFor : Int

/-- The header loop of `Evaluator.EvaluateRequest`: key and value are each
resolved independently when the content test classifies them as templates. -/
def resolveHeaders (ev : String → Except String String) :
    List (String × String) → Except String (List (String × String))
  | [] => .ok []
  | (k, v) :: rest => do
    let k' ← resolveTplStr ev k
    let v' ← resolveTplStr ev v
    let rest' ← resolveHeaders ev rest
    pure ((k', v') :: rest')

/-- The body step of `Evaluator.EvaluateRequest`: a nil body passes through
as absent, otherwise the body is resolved recursively. -/
def resolveBody (ev : String → Except String String)
    (evInt : String → Except String Int) :
    Option GoValue → Except String (Option GoValue)
  | none => .ok none
  | some b => (resolveValue ev evInt b).map some

/-- Models `Evaluator.EvaluateRequest`: resolve the URL (content test),
the headers, the body (recursively, when present), then compute the
scheduled time from the schedule specification. -/
def EvaluateRequest (ev : String → Except String String)
    (evInt : String → Except String Int) (ctx : EvaluationContext)
    (now : Int) (nano : Nat) (req : ScheduledRequest) :
    Except String ResolvedRequest := do
  let url ← resolveTplStr ev req.http.url
  let headers ← resolveHeaders ev req.http.headers
  let body ← resolveBody ev evInt req.http.body
  let (t, _) ← computeScheduledTime ctx now nano evInt req.schedule
  pure { name := req.name, method := req.http.method, url := url,
         headers := headers, body := body, scheduledFor := t }

/-- Models `HttpRequestSpec.Validate`: method and URL nonempty, method (upper
cased) among the known verbs. -/
def HttpRequestSpec.Validate (h : HttpRequestSpec) : Except String Unit :=
  if h.method = "" then .error "http.method: HTTP method is required"
  else if h.url = "" then .error "http.url: HTTP URL is required"
  else if h.method.toUpper ∈ ["GET", "POST", "PUT", "PATCH", "DELETE", "HEAD", "OPTIONS", "TRACE"] then
    .ok ()
  else .error ("http.method: invalid HTTP method: " ++ h.method)

/-- Models `ScheduledRequest.Validate`: name nonempty, then the schedule
cardinality check, then the HTTP check. -/
def ScheduledRequest.Validate (r : ScheduledRequest) : Except String Unit := do
  if r.name = "" then throw "name: request name is required"
  r.schedule.Validate
  r.http.Validate

/-- Models the validation loop at the end of `LoadConfig`: every request is
validated before the list is handed to the scheduler; the first failure
rejects the whole configuration. -/
def validateRequests : List ScheduledRequest → Except String Unit
  | [] => .ok ()
  | r :: rest =>
    match r.Validate with
    | .error e => .error e
    | .ok () => validateRequests rest

/-- The random-function calls of the template engine an expression sequence
can make, for the reproducibility property. -/
inductive RandCall where
  | rint (min max : Int)
  | rfloat

/-- Dispatch one random call against the context; `rfloat` results are the
numerator model of `sourceFloat`, embedded into `Int` alongside `rint`. -/
def doCall (ctx : EvaluationContext) (nano : Nat) : RandCall → Int × EvaluationContext
  | .rint min max => randInt ctx nano min max
  | .rfloat =>
    let (v, ctx') := randFloat ctx nano
    ((v : Int), ctx')

/-- Run an interleaved sequence of random calls, consuming one ambient
`UnixNano` reading per call (used only by the non-seeded branches). -/
def runCalls : EvaluationContext → List Nat → List RandCall → List Int × EvaluationContext
  | ctx, _, [] => ([], ctx)
  | ctx, nanos, c :: cs =>
    let (v, ctx') := doCall ctx (nanos.headD 0) c
    let (vs, ctx'') := runCalls ctx' nanos.tail cs
    (v :: vs, ctx'')

/-- A context as produced by constructing an engine and calling
`SetSeed(seed)`: fresh source (`SetSeed` resets it to nil), the given seed. -/
def freshContext (seed : Int) (vs : List (String × String)) (sequence : Int) :
    EvaluationContext :=
  { vars := vs, sequence := sequence, seed := seed, randSource := none }

/-- True exactly on `error` results (Go: the returned error is non-nil). -/
def isFailure : Except String α → Bool
  | .error _ => true
  | .ok _ => false

@[simp] theorem isFailure_error (e : String) : isFailure (.error e : Except String α) = true := rfl

@[simp] theorem isFailure_ok (a : α) : isFailure (.ok a : Except String α) = false := rfl

@[simp] theorem except_error_bind (e : String) (f : α → Except String β) :
    (Except.error e : Except String α) >>= f = .error e := rfl

@[simp] theorem except_throw_bind (e : String) (f : α → Except String β) :
    (throw e : Except String α) >>= f = .error e := rfl

/-- Range facts about `randInt`, shared by several claims: the `min ≥ max`
short-circuit, and containment in `[min, max]` otherwise, in both the seeded
and the non-seeded branch. -/
theorem randInt_bounds (ctx : EvaluationContext) (nano : Nat) (mn mx : Int) :
    (mn ≥ mx → (randInt ctx nano mn mx).1 = mn) ∧
    (mn < mx → mn ≤ (randInt ctx nano mn mx).1 ∧ (randInt ctx nano mn mx).1 ≤ mx) := by
  constructor
  · intro hge
    simp [randInt, hge]
  · intro hlt
    have hnot : ¬ mn ≥ mx := not_le.mpr hlt
    have hpos : (0 : Int) < mx - mn + 1 := by omega
    by_cases hseed : ctx.seed ≠ 0
    · have h1 : 0 ≤ (↑(sourceStep (ctx.randSource.getD (newSource ctx.seed))) : Int) % (mx - mn + 1) :=
        Int.emod_nonneg _ (by omega)
      have h2 : (↑(sourceStep (ctx.randSource.getD (newSource ctx.seed))) : Int) % (mx - mn + 1) < mx - mn + 1 :=
        Int.emod_lt_of_pos _ hpos
      simp [randInt, hnot, hseed, sourceIntn]
      omega
    · have h1 : 0 ≤ (nano : Int) % (mx - mn + 1) := Int.emod_nonneg _ (by omega)
      have h2 : (nano : Int) % (mx - mn + 1) < mx - mn + 1 := Int.emod_lt_of_pos _ hpos
      simp [randInt, hnot, hseed]
      omega

/-- C2: the claim says jitter is applied after computing the base instant for
every strategy, including the absolute-instant/epoch one. The code disagrees:
`Evaluator.computeScheduledTime` returns the epoch instant verbatim whatever
the jitter field and whatever entropy is available — the jitter field is
consulted only in the relative and template branches. -/
theorem C2_epoch_ignores_jitter (ctx : EvaluationContext) (now : Int) (nano : Nat)
    (evalTInt : String → Except String Int) (e : Int) (j : String) :
    computeScheduledTime ctx now nano evalTInt ⟨some e, none, none, none, some j⟩ =
      .ok (e * 1000000000, ctx) := rfl

/-- C3 counterexample: a Schedule Description whose relative-duration string
"bogus" is unparsable nevertheless passes `ScheduleSpec.Validate` (which
checks only strategy cardinality); the error is first raised when
`computeScheduledTime` runs — so the claim "detected at validation time, not
first when an instant is computed" fails on this input. -/
theorem C3_counterexample :
    (ScheduleSpec.Validate ⟨none, some "bogus", none, none, none⟩).isOk = true ∧
    isFailure (computeScheduledTime (freshContext 0 [] 0) 0 0 (fun _ => .error "")
      ⟨none, some "bogus", none, none, none⟩) = true := by
  decide

/-- C3 amended: the validation that runs at configuration time
(`ScheduleSpec.Validate`, called from `LoadConfig`) checks only strategy
cardinality, so every unparsable relative-duration string passes it and the
error surfaces only when `computeScheduledTime` computes an instant; the
syntax check the claim describes exists in `ScheduleEngine.ValidateSchedule`,
which does reject such strings but is not invoked on the configuration path. -/
theorem C3_amended_syntax_errors_surface_at_computation (r : String)
    (hr : parseDuration (utf8Bytes r) = none) (j : Option String)
    (ctx : EvaluationContext) (now : Int) (nano : Nat)
    (evalTInt : String → Except String Int) (cronOk : String → Bool) :
    ScheduleSpec.Validate ⟨none, some r, none, none, j⟩ = .ok () ∧
    isFailure (computeScheduledTime ctx now nano evalTInt ⟨none, some r, none, none, j⟩) = true ∧
    isFailure (ValidateSchedule cronOk ⟨none, some r, none, none, j⟩) = true := by
  refine ⟨?_, ?_, ?_⟩
  · simp [ScheduleSpec.Validate, ScheduleSpec.strategyCount]
  · simp [computeScheduledTime, hr]
  · simp [ValidateSchedule, ScheduleSpec.strategyCount, hr]

/-- Witness for the amended C3 theorem at the concrete unparsable duration
"bogus", with a jitter field present. -/
theorem C3_witness :
    ScheduleSpec.Validate ⟨none, some "bogus", none, none, some "30s"⟩ = .ok () ∧
    isFailure (computeScheduledTime (freshContext 0 [] 0) 0 0 (fun _ => .error "")
      ⟨none, some "bogus", none, none, some "30s"⟩) = true ∧
    isFailure (ValidateSchedule (fun _ => true) ⟨none, some "bogus", none, none, some "30s"⟩) = true :=
  C3_amended_syntax_errors_surface_at_computation "bogus" (by decide) (some "30s")
    (freshContext 0 [] 0) 0 0 (fun _ => .error "") (fun _ => true)

/-- C4 counterexample: the magnitude string "-30s" parses as the (negative)
duration -30s, and `TemplateEngine.jitter` then returns the base time
unchanged — which is not in the closed interval [base, base + d], so the
claim's "if m parses as a duration d, the result is in [b, b+d]" fails. -/
theorem C4_counterexample :
    parseDuration (utf8Bytes "-30s") = some (-30000000000) ∧
    (jitter (freshContext 0 [] 0) 0 0 "-30s").1 = 0 ∧
    ¬((0 : Int) ≤ 0 ∧ (0 : Int) ≤ 0 + (-30000000000)) := by
  decide

/-- C4 amended: for every base time and magnitude string, `jitter` returns
the base unchanged when the string is unparsable, a time in the closed
interval [base, base + d] when the string parses as a nonnegative duration d,
and the base unchanged when it parses as a negative duration; in every case
the result is never before the base. -/
theorem C4_amended_jitter_bounds (ctx : EvaluationContext) (nano : Nat)
    (base : Int) (m : String) :
    (parseDuration (utf8Bytes m) = none → (jitter ctx nano base m).1 = base) ∧
    (∀ d : Int, parseDuration (utf8Bytes m) = some d → 0 ≤ d →
      base ≤ (jitter ctx nano base m).1 ∧ (jitter ctx nano base m).1 ≤ base + d) ∧
    (∀ d : Int, parseDuration (utf8Bytes m) = some d → d < 0 →
      (jitter ctx nano base m).1 = base) ∧
    base ≤ (jitter ctx nano base m).1 := by
  have hsome : ∀ d : Int, parseDuration (utf8Bytes m) = some d →
      (jitter ctx nano base m).1 = base + (randInt ctx nano 0 d).1 := by
    intro d h
    rcases hri : randInt ctx nano 0 d with ⟨amt, ctx'⟩
    simp [jitter, h, hri]
  have hamt : ∀ d : Int, 0 ≤ (randInt ctx nano 0 d).1 ∧
      ((0 : Int) < d → (randInt ctx nano 0 d).1 ≤ d) ∧ (d ≤ 0 → (randInt ctx nano 0 d).1 = 0) := by
    intro d
    rcases lt_or_ge 0 d with hd | hd
    · obtain ⟨h1, h2⟩ := (randInt_bounds ctx nano 0 d).2 hd
      exact ⟨h1, fun _ => h2, fun hle => absurd hd (by omega)⟩
    · have := (randInt_bounds ctx nano 0 d).1 hd
      exact ⟨by omega, fun hlt => absurd hlt (by omega), fun _ => this⟩
  refine ⟨?_, ?_, ?_, ?_⟩
  · intro h
    simp [jitter, h]
  · intro d h hd
    obtain ⟨h1, h2, _⟩ := hamt d
    rcases eq_or_lt_of_le hd with hz | hpos
    · have := (hamt d).2.2 (by omega)
      rw [hsome d h, this]
      omega
    · have := h2 hpos
      rw [hsome d h]
      omega
  · intro d h hd
    have := (hamt d).2.2 (by omega)
    rw [hsome d h, this]
    omega
  · cases hp : parseDuration (utf8Bytes m) with
    | none => simp [jitter, hp]
    | some d =>
      obtain ⟨h1, _, _⟩ := hamt d
      rw [hsome d hp]
      omega

/-- Witness for the amended C4 theorem: magnitude "30s" over a seeded context
keeps the result inside [100, 100 + 30s]. -/
theorem C4_witness :
    (100 : Int) ≤ (jitter (freshContext 42 [] 0) 0 100 "30s").1 ∧
    (jitter (freshContext 42 [] 0) 0 100 "30s").1 ≤ 100 + 30000000000 :=
  (C4_amended_jitter_bounds (freshContext 42 [] 0) 0 100 "30s").2.1
    30000000000 (by decide) (by decide)

/-- C5: the claim (matching the code's own comments and the repository docs)
says a leading "±" is stripped and "±30s" behaves as a magnitude-30s
delay-only jitter. The code disagrees everywhere: `TemplateEngine.jitter` has
no prefix handling at all, and `ScheduleEngine.applyJitter` compares the
first UTF-8 byte of the string (194 for "±…") with the rune '±' (177), so its
stripping branch never fires on real input; "±30s" is treated as unparsable
and the base is returned unchanged, while "30s" does move the base. The raw
byte sequence [177, …] — which no valid UTF-8 string produces — is the only
input the stripping branch would accept. -/
theorem C5_pm_prefix_never_stripped :
    (jitter (freshContext 42 [] 0) 0 0 "±30s").1 = 0 ∧
    (jitter (freshContext 42 [] 0) 0 0 "30s").1 ≠ 0 ∧
    applyJitter 0 "±30s" 7 = 0 ∧
    applyJitter 0 "30s" 7 = 7 ∧
    utf8Bytes "±30s" = [194, 177, 51, 48, 115] ∧
    jitterParseBytes (utf8Bytes "±30s") = utf8Bytes "±30s" ∧
    jitterParseBytes [177, 51, 48, 115] = [51, 48, 115] := by
  decide

/-- C7: `randInt(min, max)` never errors, returns min unconditionally when
min ≥ max (in particular randInt(20, 10) = 20), and otherwise returns a value
in the inclusive interval [min, max], in both the seeded and the non-seeded
path. -/
theorem C7_randInt_range (ctx : EvaluationContext) (nano : Nat) (mn mx : Int) :
    (mn ≥ mx → (randInt ctx nano mn mx).1 = mn) ∧
    (mn < mx → mn ≤ (randInt ctx nano mn mx).1 ∧ (randInt ctx nano mn mx).1 ≤ mx) :=
  randInt_bounds ctx nano mn mx

/-- Witness for C7 at randInt(20, 10) (returns 20) and randInt(1, 3)
(contained in [1, 3]), over a non-seeded context. -/
theorem C7_witness :
    (randInt (freshContext 0 [] 0) 5 20 10).1 = 20 ∧
    1 ≤ (randInt (freshContext 0 [] 0) 5 1 3).1 ∧
    (randInt (freshContext 0 [] 0) 5 1 3).1 ≤ 3 :=
  ⟨(C7_randInt_range (freshContext 0 [] 0) 5 20 10).1 (by decide),
   ((C7_randInt_range (freshContext 0 [] 0) 5 1 3).2 (by decide)).1,
   ((C7_randInt_range (freshContext 0 [] 0) 5 1 3).2 (by decide)).2⟩

/-- A request whose schedule does not have exactly one strategy set fails
`ScheduledRequest.Validate` (either at the name check or at the schedule
cardinality check, both before any scheduling). -/
theorem validate_err_of_bad_schedule (r : ScheduledRequest)
    (h : r.schedule.strategyCount ≠ 1) : isFailure r.Validate = true := by
  unfold ScheduledRequest.Validate
  by_cases hn : r.name = ""
  · simp [hn]
  · simp [hn, ScheduleSpec.Validate, h]

/-- The `LoadConfig` validation loop rejects any configuration containing a
request whose schedule cardinality is wrong. -/
theorem validateRequests_err (reqs : List ScheduledRequest) :
    ∀ r ∈ reqs, r.schedule.strategyCount ≠ 1 →
      isFailure (validateRequests reqs) = true := by
  induction reqs with
  | nil => intro r hr; cases hr
  | cons x rest ih =>
    intro r hr hbad
    cases hx : x.Validate with
    | error e => simp [validateRequests, hx]
    | ok u =>
      rcases List.mem_cons.mp hr with heq | hmem
      · subst heq
        have := validate_err_of_bad_schedule r hbad
        rw [hx] at this
        simp at this
      · simpa [validateRequests, hx] using ih r hmem hbad

/-- C1: schedule validation succeeds exactly when exactly one of the four
strategies is set; with zero or two-or-more set it returns a validation
error; and the check runs at configuration time — `LoadConfig`'s validation
loop rejects the whole request list before anything is scheduled. -/
theorem C1_validation_iff_exactly_one_strategy :
    (∀ s : ScheduleSpec, s.Validate = .ok () ↔ s.strategyCount = 1) ∧
    (∀ reqs : List ScheduledRequest, ∀ r ∈ reqs, r.schedule.strategyCount ≠ 1 →
      isFailure (validateRequests reqs) = true) := by
  constructor
  · intro s
    unfold ScheduleSpec.Validate
    split <;> simp_all
  · exact validateRequests_err

/-- Witness for C1: a one-strategy schedule validates, and a configuration
holding a zero-strategy request is rejected by the load-time loop. -/
theorem C1_witness :
    (ScheduleSpec.Validate ⟨some 2000, none, none, none, none⟩ = .ok () ↔
      (⟨some 2000, none, none, none, none⟩ : ScheduleSpec).strategyCount = 1) ∧
    isFailure (validateRequests
      [⟨"r", ⟨none, none, none, none, none⟩, ⟨"GET", "https://example.com", [], none⟩⟩]) = true :=
  ⟨C1_validation_iff_exactly_one_strategy.1 _,
   C1_validation_iff_exactly_one_strategy.2
     [⟨"r", ⟨none, none, none, none, none⟩, ⟨"GET", "https://example.com", [], none⟩⟩]
     ⟨"r", ⟨none, none, none, none, none⟩, ⟨"GET", "https://example.com", [], none⟩⟩
     (List.mem_singleton.mpr rfl) (by decide)⟩

/-- One random call on two contexts that share a nonzero seed and the same
generator state produces the same output and the same successor state,
whatever ambient `UnixNano` readings, variables or sequence values differ. -/
theorem doCall_seeded_eq (c : RandCall) (ctx₁ ctx₂ : EvaluationContext)
    (nano₁ nano₂ : Nat) (hs : ctx₁.seed = ctx₂.seed) (h0 : ctx₁.seed ≠ 0)
    (hr : ctx₁.randSource = ctx₂.randSource) :
    (doCall ctx₁ nano₁ c).1 = (doCall ctx₂ nano₂ c).1 ∧
    (doCall ctx₁ nano₁ c).2.seed = ctx₁.seed ∧
    (doCall ctx₂ nano₂ c).2.seed = ctx₂.seed ∧
    (doCall ctx₁ nano₁ c).2.randSource = (doCall ctx₂ nano₂ c).2.randSource := by
  have h0' : ctx₂.seed ≠ 0 := hs ▸ h0
  cases c with
  | rint mn mx =>
    by_cases hge : mn ≥ mx
    · simp [doCall, randInt, hge, hr]
    · simp [doCall, randInt, hge, h0, h0', hr, hs, sourceIntn]
  | rfloat =>
    simp [doCall, randFloat, h0, h0', hr, hs, sourceFloat]

/-- Unfolding equation for `runCalls` on a cons cell. -/
theorem runCalls_cons (ctx : EvaluationContext) (nanos : List Nat)
    (c : RandCall) (cs : List RandCall) :
    runCalls ctx nanos (c :: cs) =
      ((doCall ctx (nanos.headD 0) c).1 ::
        (runCalls (doCall ctx (nanos.headD 0) c).2 nanos.tail cs).1,
       (runCalls (doCall ctx (nanos.headD 0) c).2 nanos.tail cs).2) := rfl

/-- Whole-run reproducibility: equal nonzero seeds and equal generator states
give identical output sequences for any identical call sequence. -/
theorem runCalls_seeded_eq (calls : List RandCall) :
    ∀ (ctx₁ ctx₂ : EvaluationContext) (nanos₁ nanos₂ : List Nat),
      ctx₁.seed = ctx₂.seed → ctx₁.seed ≠ 0 → ctx₁.randSource = ctx₂.randSource →
      (runCalls ctx₁ nanos₁ calls).1 = (runCalls ctx₂ nanos₂ calls).1 := by
  induction calls with
  | nil => intro _ _ _ _ _ _ _; rfl
  | cons c cs ih =>
    intro ctx₁ ctx₂ n₁ n₂ hs h0 hr
    obtain ⟨hout, hseed₁, hseed₂, hrs⟩ :=
      doCall_seeded_eq c ctx₁ ctx₂ (n₁.headD 0) (n₂.headD 0) hs h0 hr
    rw [runCalls_cons, runCalls_cons]
    show (doCall ctx₁ (n₁.headD 0) c).1 ::
        (runCalls (doCall ctx₁ (n₁.headD 0) c).2 n₁.tail cs).1 =
      (doCall ctx₂ (n₂.headD 0) c).1 ::
        (runCalls (doCall ctx₂ (n₂.headD 0) c).2 n₂.tail cs).1
    rw [hout, ih _ _ n₁.tail n₂.tail (by rw [hseed₁, hseed₂, hs]) (by rw [hseed₁]; exact h0) hrs]

/-- C8: with the same fixed nonzero seed, two independently constructed
Evaluation Contexts (any variables, any sequence values, any ambient clock
readings) produce identical output sequences for any identical interleaved
sequence of `randInt`/`randFloat` calls. -/
theorem C8_fixed_seed_reproducible (S : Int) (hS : S ≠ 0)
    (vs₁ vs₂ : List (String × String)) (q₁ q₂ : Int)
    (nanos₁ nanos₂ : List Nat) (calls : List RandCall) :
    (runCalls (freshContext S vs₁ q₁) nanos₁ calls).1 =
      (runCalls (freshContext S vs₂ q₂) nanos₂ calls).1 :=
  runCalls_seeded_eq calls _ _ nanos₁ nanos₂ rfl hS rfl

/-- Witness for C8: seed 42, an interleaved rint/rfloat/rint call sequence,
two contexts differing in variables, sequence and clock readings. -/
theorem C8_witness :
    (runCalls (freshContext 42 [("a", "b")] 3) [7, 8, 9]
      [.rint 1 100, .rfloat, .rint 5 5]).1 =
    (runCalls (freshContext 42 [] 0) [] [.rint 1 100, .rfloat, .rint 5 5]).1 :=
  C8_fixed_seed_reproducible 42 (by decide) [("a", "b")] [] 3 0 [7, 8, 9] []
    [.rint 1 100, .rfloat, .rint 5 5]

theorem hexDigit_isHex : ∀ m, m < 16 → isHexChar (hexDigit m) = true := by decide

/-- Both characters `%x` prints for a byte are lowercase hex digits. -/
theorem hexByte_isHex (b : Nat) (hb : b < 256) : ∀ c ∈ hexByte b, isHexChar c = true := by
  intro c hc
  rcases List.mem_cons.mp hc with h | h
  · subst h
    exact hexDigit_isHex _ (by omega)
  · rcases List.mem_singleton.mp h with rfl
    exact hexDigit_isHex _ (Nat.mod_lt _ (by omega))

theorem hexGroup_length (bs : List Nat) : (hexGroup bs).length = 2 * bs.length := by
  induction bs with
  | nil => rfl
  | cons b rest ih => simp [hexGroup, hexByte] at ih ⊢; omega

theorem hexGroup_isHex (bs : List Nat) (hb : ∀ x ∈ bs, x < 256) :
    ∀ c ∈ hexGroup bs, isHexChar c = true := by
  induction bs with
  | nil => intro c hc; cases hc
  | cons b rest ih =>
    intro c hc
    rw [show hexGroup (b :: rest) = hexByte b ++ hexGroup rest from rfl] at hc
    rcases List.mem_append.mp hc with h | h
    · exact hexByte_isHex b (hb b (List.mem_cons_self _ _)) c h
    · exact ih (fun x hx => hb x (List.mem_cons_of_mem _ hx)) c h

/-- Consuming exactly the length of an all-hex block leaves the rest. -/
theorem hexRun_append : ∀ (g : List Char) (n : Nat) (rest : List Char), g.length = n →
    (∀ c ∈ g, isHexChar c = true) → hexRun n (g ++ rest) = some rest := by
  intro g
  induction g with
  | nil =>
    intro n rest hlen _
    simp at hlen
    subst hlen
    rfl
  | cons c g' ih =>
    intro n rest hlen hhex
    subst hlen
    show hexRun (g'.length + 1) (c :: (g' ++ rest)) = some rest
    rw [hexRun]
    simp [hhex c (List.mem_cons_self _ _),
      ih g'.length rest rfl (fun x hx => hhex x (List.mem_cons_of_mem _ hx))]

/-- One hyphen-separated step of the shape check. -/
theorem groupsShape_step (n m : Nat) (ns : List Nat) (g rest : List Char)
    (hg : g.length = n) (hhex : ∀ c ∈ g, isHexChar c = true) :
    groupsShape (n :: m :: ns) (g ++ (Char.ofNat 45 :: rest)) = groupsShape (m :: ns) rest := by
  have h := hexRun_append g n (Char.ofNat 45 :: rest) hg hhex
  rw [groupsShape, h]
  simp

/-- The last group of the shape check. -/
theorem groupsShape_last (n : Nat) (g : List Char) (hg : g.length = n)
    (hhex : ∀ c ∈ g, isHexChar c = true) : groupsShape [n] g = true := by
  have h := hexRun_append g n [] hg hhex
  rw [List.append_nil] at h
  rw [groupsShape, h]
  rfl

theorem setUuidBits_length : ∀ (i : Nat) (bs : List Nat), (setUuidBits i bs).length = bs.length := by
  intro i bs
  induction bs generalizing i with
  | nil => rfl
  | cons b rest ih => simp [setUuidBits, ih]

theorem setUuidBits_lt : ∀ (i : Nat) (bs : List Nat), (∀ x ∈ bs, x < 256) →
    ∀ x ∈ setUuidBits i bs, x < 256 := by
  intro i bs
  induction bs generalizing i with
  | nil => intro _ x hx; cases hx
  | cons b rest ih =>
    intro hb x hx
    simp only [setUuidBits, List.mem_cons] at hx
    rcases hx with hx | hx
    · subst hx
      split
      · have h1 : b &&& 15 ≤ 15 := Nat.and_le_right
        have h64 : ∀ y < 16, y ||| 64 < 256 := by decide
        exact h64 _ (by omega)
      · split
        · have h1 : b &&& 63 ≤ 63 := Nat.and_le_right
          have h128 : ∀ y < 64, y ||| 128 < 256 := by decide
          exact h128 _ (by omega)
        · exact hb b (List.mem_cons_self _ _)
    · exact ih (i + 1) (fun y hy => hb y (List.mem_cons_of_mem _ hy)) x hx

/-- C6 counterexample: on entropy-source failure the fallback identifier is
the decimal string "nanos-sequence", here "1700000000000000000-5", which does
not match the 8-4-4-4-12 hex-group shape — so the claim that both paths
produce the version-4-UUID shape fails on the fallback path. -/
theorem C6_counterexample :
    uuid none 1700000000000000000 5 = "1700000000000000000-5" ∧
    uuidShape (uuid none 1700000000000000000 5) = false := by
  decide

/-- C6 amended: `uuid` never fails, and on the normal path (entropy read
succeeds, sixteen bytes) the result always matches the 8-4-4-4-12 shape; on
entropy-source failure the fallback derives the identifier from the current
time and the sequence counter, but as a two-group decimal string, not in the
UUID shape. -/
theorem C6_amended_uuid_shape (bs : List Nat) (nano sq : Int)
    (hlen : bs.length = 16) (hlt : ∀ x ∈ bs, x < 256) :
    uuidShape (uuid (some bs) nano sq) = true := by
  have hblen : (setUuidBits 0 bs).length = 16 := by rw [setUuidBits_length]; exact hlen
  have hblt : ∀ x ∈ setUuidBits 0 bs, x < 256 := setUuidBits_lt 0 bs hlt
  set b := setUuidBits 0 bs with hbdef
  show groupsShape [8, 4, 4, 4, 12]
    (hexGroup (b.take 4) ++ [Char.ofNat 45] ++ hexGroup ((b.drop 4).take 2) ++ [Char.ofNat 45] ++
      hexGroup ((b.drop 6).take 2) ++ [Char.ofNat 45] ++ hexGroup ((b.drop 8).take 2) ++
      [Char.ofNat 45] ++ hexGroup (b.drop 10)) = true
  have m1 : ∀ x ∈ b.take 4, x < 256 := fun x hx => hblt x (List.take_subset _ _ hx)
  have m2 : ∀ x ∈ (b.drop 4).take 2, x < 256 :=
    fun x hx => hblt x (List.drop_subset _ _ (List.take_subset _ _ hx))
  have m3 : ∀ x ∈ (b.drop 6).take 2, x < 256 :=
    fun x hx => hblt x (List.drop_subset _ _ (List.take_subset _ _ hx))
  have m4 : ∀ x ∈ (b.drop 8).take 2, x < 256 :=
    fun x hx => hblt x (List.drop_subset _ _ (List.take_subset _ _ hx))
  have m5 : ∀ x ∈ b.drop 10, x < 256 := fun x hx => hblt x (List.drop_subset _ _ hx)
  have l1 : (hexGroup (b.take 4)).length = 8 := by
    rw [hexGroup_length, List.length_take, hblen]; decide
  have l2 : (hexGroup ((b.drop 4).take 2)).length = 4 := by
    rw [hexGroup_length, List.length_take, List.length_drop, hblen]; decide
  have l3 : (hexGroup ((b.drop 6).take 2)).length = 4 := by
    rw [hexGroup_length, List.length_take, List.length_drop, hblen]; decide
  have l4 : (hexGroup ((b.drop 8).take 2)).length = 4 := by
    rw [hexGroup_length, List.length_take, List.length_drop, hblen]; decide
  have l5 : (hexGroup (b.drop 10)).length = 12 := by
    rw [hexGroup_length, List.length_drop, hblen]
  simp only [List.append_assoc, List.singleton_append, List.cons_append, List.nil_append]
  rw [groupsShape_step 8 4 _ _ _ l1 (hexGroup_isHex _ m1),
    groupsShape_step 4 4 _ _ _ l2 (hexGroup_isHex _ m2),
    groupsShape_step 4 4 _ _ _ l3 (hexGroup_isHex _ m3),
    groupsShape_step 4 12 _ _ _ l4 (hexGroup_isHex _ m4),
    groupsShape_last 12 _ l5 (hexGroup_isHex _ m5)]

/-- Witness for the amended C6 theorem at a concrete sixteen-byte entropy
read (all zero bytes). -/
theorem C6_witness :
    uuidShape (uuid (some (List.replicate 16 0)) 0 0) = true :=
  C6_amended_uuid_shape (List.replicate 16 0) 0 0 (by decide) (by decide)

@[simp] theorem except_ok_bind (a : α) (f : α → Except String β) :
    (Except.ok a : Except String α) >>= f = f a := rfl

@[simp] theorem except_map_ok (f : α → β) (a : α) :
    Except.map f (Except.ok a : Except String α) = .ok (f a) := rfl

@[simp] theorem except_map_error (f : α → β) (e : String) :
    Except.map f (Except.error e : Except String α) = .error e := rfl

@[simp] theorem except_pure_eq (a : α) : (pure a : Except String α) = .ok a := rfl

mutual

/-- Resolution is the identity on template-free values: no plain string the
content test classifies as a template, no dynamic wrapper. -/
theorem resolveValue_templateFree (ev : String → Except String String)
    (evInt : String → Except String Int) :
    ∀ v : GoValue, templateFree v = true → resolveValue ev evInt v = .ok v
  | .null, _ => rfl
  | .str s, h => by
    have hs : IsTemplateString s = false := by simpa [templateFree] using h
    simp [resolveValue, hs]
  | .int _, _ => rfl
  | .map es, h => by
    have h' : templateFreeEntries es = true := by simpa [templateFree] using h
    simp [resolveValue, resolveEntries_templateFree ev evInt es h']
  | .arr xs, h => by
    have h' : templateFreeItems xs = true := by simpa [templateFree] using h
    simp [resolveValue, resolveItems_templateFree ev evInt xs h']
  | .dynStr b v t, h => by simp [templateFree] at h
  | .dynInt b v t, h => by simp [templateFree] at h
  | .dynAny b v t, h => by simp [templateFree] at h

/-- `resolveValue_templateFree` over map entries. -/
theorem resolveEntries_templateFree (ev : String → Except String String)
    (evInt : String → Except String Int) :
    ∀ es : List (String × GoValue), templateFreeEntries es = true →
      resolveEntries ev evInt es = .ok es
  | [], _ => rfl
  | (k, v) :: rest, h => by
    have h' : (IsTemplateString k = false ∧ templateFree v = true) ∧
        templateFreeEntries rest = true := by
      simpa [templateFreeEntries] using h
    simp [resolveEntries, resolveTplStr, h'.1.1,
      resolveValue_templateFree ev evInt v h'.1.2,
      resolveEntries_templateFree ev evInt rest h'.2]

/-- `resolveValue_templateFree` over list items. -/
theorem resolveItems_templateFree (ev : String → Except String String)
    (evInt : String → Except String Int) :
    ∀ xs : List GoValue, templateFreeItems xs = true → resolveItems ev evInt xs = .ok xs
  | [], _ => rfl
  | v :: rest, h => by
    have h' : templateFree v = true ∧ templateFreeItems rest = true := by
      simpa [templateFreeItems] using h
    simp [resolveItems, resolveValue_templateFree ev evInt v h'.1,
      resolveItems_templateFree ev evInt rest h'.2]

end

/-- A header pair whose key and value are both literal (non-template) strings
survives header resolution unchanged. -/
theorem resolveHeaders_mem (ev : String → Except String String) :
    ∀ (hs hs' : List (String × String)), resolveHeaders ev hs = .ok hs' →
      ∀ k v, (k, v) ∈ hs → IsTemplateString k = false → IsTemplateString v = false →
        (k, v) ∈ hs' := by
  intro hs
  induction hs with
  | nil =>
    intro hs' h k v hkv
    cases hkv
  | cons p rest ih =>
    obtain ⟨k₀, v₀⟩ := p
    intro hs' h k v hkv hk hv
    simp only [resolveHeaders] at h
    rcases hk0 : resolveTplStr ev k₀ with e | k0' <;>
      rw [hk0] at h <;>
      simp only [except_error_bind, except_ok_bind] at h
    · cases h
    rcases hv0 : resolveTplStr ev v₀ with e | v0' <;>
      rw [hv0] at h <;>
      simp only [except_error_bind, except_ok_bind] at h
    · cases h
    rcases hrest : resolveHeaders ev rest with e | rest' <;>
      rw [hrest] at h <;>
      simp only [except_error_bind, except_ok_bind, except_pure_eq] at h
    · cases h
    have hhs : hs' = (k0', v0') :: rest' := by
      have := h
      simp only [Except.ok.injEq] at this
      exact this.symm
    subst hhs
    rcases List.mem_cons.mp hkv with heq | hmem
    · injection heq with e1 e2
      subst e1
      subst e2
      simp only [resolveTplStr, hk, hv, Bool.false_eq_true, if_false, Except.ok.injEq] at hk0 hv0
      rw [← hk0, ← hv0]
      exact List.mem_cons_self _ _
    · exact List.mem_cons_of_mem _ (ih rest' hrest k v hmem hk hv)

/-- C9: literal (non-expression) strings pass through resolution unchanged —
for the plain-string case of `resolveValue` (hence every string scalar
reachable in the body, each being resolved individually by it), for whole
template-free bodies, for the URL, and for header keys and values. -/
theorem C9_literal_strings_unchanged :
    (∀ (ev : String → Except String String) (evInt : String → Except String Int) (s : String),
      IsTemplateString s = false → resolveValue ev evInt (.str s) = .ok (.str s)) ∧
    (∀ (ev : String → Except String String) (evInt : String → Except String Int) (v : GoValue),
      templateFree v = true → resolveValue ev evInt v = .ok v) ∧
    (∀ (ev : String → Except String String) (evInt : String → Except String Int)
      (ctx : EvaluationContext) (now : Int) (nano : Nat) (req : ScheduledRequest)
      (res : ResolvedRequest), EvaluateRequest ev evInt ctx now nano req = .ok res →
      (IsTemplateString req.http.url = false → res.url = req.http.url) ∧
      (∀ k v, (k, v) ∈ req.http.headers → IsTemplateString k = false →
        IsTemplateString v = false → (k, v) ∈ res.headers)) := by
  refine ⟨?_, ?_, ?_⟩
  · intro ev evInt s hs
    simp [resolveValue, hs]
  · intro ev evInt v hv
    exact resolveValue_templateFree ev evInt v hv
  · intro ev evInt ctx now nano req res h
    unfold EvaluateRequest at h
    rcases hu : resolveTplStr ev req.http.url with e | u <;> rw [hu] at h <;>
      simp only [except_error_bind, except_ok_bind] at h
    · cases h
    rcases hh : resolveHeaders ev req.http.headers with e | hds <;> rw [hh] at h <;>
      simp only [except_error_bind, except_ok_bind] at h
    · cases h
    rcases hb : resolveBody ev evInt req.http.body with e | ob <;> rw [hb] at h <;>
      simp only [except_error_bind, except_ok_bind] at h
    · cases h
    rcases ht : computeScheduledTime ctx now nano evInt req.schedule with e | tp <;>
      rw [ht] at h <;>
      simp only [except_error_bind, except_ok_bind, except_pure_eq, Except.ok.injEq] at h
    · cases h
    obtain ⟨t, ctx'⟩ := tp
    simp only [] at h
    constructor
    · intro hurl
      simp only [resolveTplStr, hurl, Bool.false_eq_true, if_false, Except.ok.injEq] at hu
      rw [← h]
      simpa using hu.symm
    · intro k v hkv hk hv
      rw [← h]
      exact resolveHeaders_mem ev req.http.headers hds hh k v hkv hk hv

/-- Witness for C9: the literal string "static" and a literal body map pass
through resolution unchanged, under a template engine that marks every
evaluated string. -/
theorem C9_witness :
    resolveValue (fun s => .ok (s ++ "!")) (fun _ => .ok 0) (.str "static") = .ok (.str "static") ∧
    resolveValue (fun s => .ok (s ++ "!")) (fun _ => .ok 0)
      (.map [("note", GoValue.str "static")]) = .ok (.map [("note", GoValue.str "static")]) :=
  ⟨C9_literal_strings_unchanged.1 (fun s => .ok (s ++ "!")) (fun _ => .ok 0) "static" (by decide),
   C9_literal_strings_unchanged.2.1 (fun s => .ok (s ++ "!")) (fun _ => .ok 0)
     (.map [("note", GoValue.str "static")]) (by decide)⟩

/-- C10: a plain string is handed to template evaluation exactly when it
contains "\x7b\x7b" somewhere and "\x7d\x7d" somewhere, with no ordering or
pairing constraint — "\x7d\x7d then \x7b\x7b" is evaluated as a template, while a
string containing only one of the two markers passes through as a literal;
the same content test routes the URL of a request. -/
theorem C10_content_test_decides :
    (∀ (ev : String → Except String String) (evInt : String → Except String Int) (s : String),
      strContains s "\x7b\x7b" = true → strContains s "\x7d\x7d" = false →
      resolveValue ev evInt (.str s) = .ok (.str s)) ∧
    (∀ (ev : String → Except String String) (evInt : String → Except String Int) (s : String),
      strContains s "\x7d\x7d" = true → strContains s "\x7b\x7b" = false →
      resolveValue ev evInt (.str s) = .ok (.str s)) ∧
    (∀ (ev : String → Except String String) (evInt : String → Except String Int),
      resolveValue ev evInt (.str "\x7d\x7d then \x7b\x7b") =
        (ev "\x7d\x7d then \x7b\x7b").map GoValue.str) ∧
    (∀ (ev : String → Except String String) (evInt : String → Except String Int)
      (ctx : EvaluationContext) (now : Int) (nano : Nat) (req : ScheduledRequest)
      (res : ResolvedRequest), EvaluateRequest ev evInt ctx now nano req = .ok res →
      IsTemplateString req.http.url = true → ev req.http.url = .ok res.url) := by
  refine ⟨?_, ?_, ?_, ?_⟩
  · intro ev evInt s h1 h2
    have hs : IsTemplateString s = false := by simp [IsTemplateString, h1, h2]
    simp [resolveValue, hs]
  · intro ev evInt s h1 h2
    have hs : IsTemplateString s = false := by simp [IsTemplateString, h1, h2]
    simp [resolveValue, hs]
  · intro ev evInt
    have hs : IsTemplateString "\x7d\x7d then \x7b\x7b" = true := by decide
    simp [resolveValue, hs]
  · intro ev evInt ctx now nano req res h hurl
    unfold EvaluateRequest at h
    have hscrut : resolveTplStr ev req.http.url = ev req.http.url := by
      simp [resolveTplStr, hurl]
    rw [hscrut] at h
    rcases hu : ev req.http.url with e | u <;> rw [hu] at h <;>
      simp only [except_error_bind, except_ok_bind] at h
    · cases h
    rcases hh : resolveHeaders ev req.http.headers with e | hds <;> rw [hh] at h <;>
      simp only [except_error_bind, except_ok_bind] at h
    · cases h
    rcases hb : resolveBody ev evInt req.http.body with e | ob <;> rw [hb] at h <;>
      simp only [except_error_bind, except_ok_bind] at h
    · cases h
    rcases ht : computeScheduledTime ctx now nano evInt req.schedule with e | tp <;>
      rw [ht] at h <;>
      simp only [except_error_bind, except_ok_bind, except_pure_eq, Except.ok.injEq] at h
    · cases h
    obtain ⟨t, ctx'⟩ := tp
    rw [← h]

/-- Witness for C10: a string with an unmatched opening marker passes through
unchanged, under a template engine that marks every evaluated string. -/
theorem C10_witness :
    resolveValue (fun s => .ok (s ++ "!")) (fun _ => .ok 0)
      (.str "\x7b\x7b unclosed") = .ok (.str "\x7b\x7b unclosed") :=
  C10_content_test_decides.1 (fun s => .ok (s ++ "!")) (fun _ => .ok 0)
    "\x7b\x7b unclosed" (by decide) (by decide)

end DRS

-- Sanity examples for the duration-parser model (kept as compiled checks).
example : DRS.parseDuration (DRS.utf8Bytes "5m") = some 300000000000 := by decide
example : DRS.parseDuration (DRS.utf8Bytes "30s") = some 30000000000 := by decide
example : DRS.parseDuration (DRS.utf8Bytes "-30s") = some (-30000000000) := by decide
example : DRS.parseDuration (DRS.utf8Bytes "1h30m") = some 5400000000000 := by decide
example : DRS.parseDuration (DRS.utf8Bytes "1.5s") = some 1500000000 := by decide
example : DRS.parseDuration (DRS.utf8Bytes "±30s") = none := by decide
example : DRS.parseDuration (DRS.utf8Bytes "bogus") = none := by decide
example : DRS.parseDuration (DRS.utf8Bytes "0") = some 0 := by decide
example : DRS.parseDuration (DRS.utf8Bytes "") = none := by decide
example : DRS.utf8Bytes "±30s" = [194, 177, 51, 48, 115] := by decide
